import Mathlib

/-!
Shallow embedding of the DPF + sst-filters example plugin (two variants:
the filtered-stereo DSP in `src/unnamed/part_000` and the gain-only
sine-generator DSP in `src/src/PluginDSP.cpp`), together with proofs about
the claims of its specification.

Samples and parameter values are modelled as real numbers.  The external
sst-filters library entry points (`GetQFPtrFilterUnit`'s filter function,
`FilterCoefficientMaker::MakeCoeffs`, `FilterCoefficientMaker::updateState`)
are not part of this repository; they are modelled as an abstract interface
(`FilterLib`) so that theorems about the plugin's own orchestration hold for
every implementation of that interface, and concrete instantiations are used
for counterexamples and witnesses.
-/

namespace DpfSst

noncomputable section

/-- A 4-lane SIMD vector (`__m128`), one real number per lane. -/
structure Vec4 where
  s0 : ℝ
  s1 : ℝ
  s2 : ℝ
  s3 : ℝ

/-- The all-zero SIMD vector (`_mm_setzero_ps`). -/
def Vec4.zero : Vec4 := ⟨0, 0, 0, 0⟩

/-- `_mm_set_ps1`: broadcast one scalar to all four lanes. -/
def Vec4.splat (x : ℝ) : Vec4 := ⟨x, x, x, x⟩

/-- `_mm_mul_ps(v, _mm_set_ps1 g)`: multiply every lane by a scalar. -/
def Vec4.scale (v : Vec4) (g : ℝ) : Vec4 := ⟨v.s0 * g, v.s1 * g, v.s2 * g, v.s3 * g⟩

/-- `_mm_loadu_ps(&buf[i])`: unaligned load of four consecutive samples. -/
def load4 (buf : ℕ → ℝ) (i : ℕ) : Vec4 := ⟨buf i, buf (i+1), buf (i+2), buf (i+3)⟩

/-- A scalar store `buf[i] = v`. -/
def writeAt (buf : ℕ → ℝ) (i : ℕ) (v : ℝ) : ℕ → ℝ :=
  fun j => if j = i then v else buf j

/-- `_mm_storeu_ps(&buf[i], v)`: unaligned store of four consecutive samples
at indices `i`, `i+1`, `i+2`, `i+3`. -/
def store4 (buf : ℕ → ℝ) (i : ℕ) (v : Vec4) : ℕ → ℝ :=
  writeAt (writeAt (writeAt (writeAt buf i v.s0) (i+1) v.s1) (i+2) v.s2) (i+3) v.s3

/-- The `CLAMP(v, min, max)` macro: `MIN(max, MAX(min, v))`. -/
def clampR (v lo hi : ℝ) : ℝ := min hi (max lo v)

/-- The `DB_CO(g)` macro: decibel-to-linear-gain conversion,
`g > -90 ? powf(10, g * 0.05) : 0` (hard floor at and below -90 dB). -/
def DB_CO (g : ℝ) : ℝ := if g > -90 then (10 : ℝ) ^ (g * 0.05) else 0

/-- Modelled from the spec: the `CParamSmooth` one-pole parameter smoother of
the missing header `CParamSmooth.hpp`.  State: current smoothed value, the
most recent target, the time constant in milliseconds and the sample rate. -/
structure CParamSmooth where
  value : ℝ
  lastTarget : ℝ
  timeMs : ℝ
  rate : ℝ

/-- Modelled from the spec: the smoothing coefficient
`coeff = exp(-1 / (timeConstantMs * 0.001 * sampleRate))`. -/
def CParamSmooth.coeff (s : CParamSmooth) : ℝ :=
  Real.exp (-1 / (s.timeMs * 0.001 * s.rate))

/-- Modelled from the spec: `process(target)` returns
`new = target + coeff * (old - target)` and stores it as the new smoothed
value, remembering the target. -/
def CParamSmooth.process (s : CParamSmooth) (target : ℝ) : ℝ × CParamSmooth :=
  let v := target + s.coeff * (s.value - target)
  (v, { s with value := v, lastTarget := target })

/-- Modelled from the spec: `flush()` resets the internal smoothed value to
the last target, eliminating any ramp-in. -/
def CParamSmooth.flush (s : CParamSmooth) : CParamSmooth :=
  { s with value := s.lastTarget }

/-- Modelled from the spec: `setSampleRate(r)` updates the ramp speed
(the stored sample rate, hence the coefficient); it does not flush. -/
def CParamSmooth.setSampleRate (s : CParamSmooth) (r : ℝ) : CParamSmooth :=
  { s with rate := r }

/-- Iterate `process` with a fixed target `n` times. -/
def CParamSmooth.processN (s : CParamSmooth) (target : ℝ) : ℕ → CParamSmooth
  | 0 => s
  | n + 1 => ((s.processN target n).process target).2

/-- Staging state of `sst::filters::FilterCoefficientMaker`: the staged
coefficient array `C[n_cm_coeffs]` (`n_cm_coeffs = 8` in the library) plus
the configured sample rate and nominal block size. -/
structure CoeffMaker where
  C : Fin 8 → ℝ
  rate : ℝ
  blockSize : ℕ

/-- `sst::filters::QuadFilterUnitState`: register bank `R` (16 registers),
coefficient registers `C` (8), per-lane delay-line write pointers `WP`,
per-lane active masks, and the per-lane delay-line contents.  The C++ state
holds raw pointers `DB[i]` into the plugin's `delayBuffer` arena; following
the spec's arena model the buffer contents are carried in the state itself. -/
structure QuadFilterUnitState where
  R : Fin 16 → Vec4
  C : Fin 8 → Vec4
  WP : Fin 4 → ℕ
  active : Fin 4 → ℕ
  DB : Fin 4 → ℕ → ℝ

/-- The external sst-filters entry points used by the plugin, as an abstract
interface: the per-sample quad filter function bound by
`GetQFPtrFilterUnit` (which may mutate the whole runtime state including the
delay lines), `MakeCoeffs` (recomputes the staged coefficients from a
frequency-note and a resonance) and `updateState` (pushes staged
coefficients into the live runtime state). -/
structure FilterLib where
  FUnit : QuadFilterUnitState → Vec4 → Vec4 × QuadFilterUnitState
  MakeCoeffs : CoeffMaker → ℝ → ℝ → CoeffMaker
  updateState : CoeffMaker → QuadFilterUnitState → QuadFilterUnitState

/-! ## The filtered-stereo variant (`src/unnamed/part_000`) -/

namespace Filtered

/-- Mutable fields of the `ImGuiPluginDSP` class of `src/unnamed/part_000`:
sample rate, gain parameter (dB and cached linear form), the gain smoother,
frequency-note and resonance parameters, the coefficient maker staging state
and the live quad filter state (whose `DB` component is the `delayBuffer`
arena the C++ delay pointers point into). -/
structure PluginState where
  fSampleRate : ℝ
  fGainDB : ℝ
  fGainLinear : ℝ
  fSmoothGain : CParamSmooth
  fFreqNote : ℝ
  fResonance : ℝ
  coeffMaker : CoeffMaker
  filterState : QuadFilterUnitState

/-- `getParameterValue`: indices 0, 1, 2 return the gain-in-dB,
frequency-note and resonance fields; any other index returns `0.0`. -/
def getParameterValue (p : PluginState) (index : ℕ) : ℝ :=
  match index with
  | 0 => p.fGainDB
  | 1 => p.fFreqNote
  | 2 => p.fResonance
  | _ => 0

/-- `setParameterValue`: index 0 stores the dB value and caches
`DB_CO(CLAMP(value, -90, 30))`; indices 1 and 2 store the raw value
(the `d_stdout` logging has no state effect); other indices do nothing. -/
def setParameterValue (p : PluginState) (index : ℕ) (value : ℝ) : PluginState :=
  match index with
  | 0 => { p with fGainDB := value, fGainLinear := DB_CO (clampR value (-90) 30) }
  | 1 => { p with fFreqNote := value }
  | 2 => { p with fResonance := value }
  | _ => p

/-- `resetFilterRegisters`: `coeffMaker.Reset()` zeroes the staged
coefficients; the filter state's `R` and `C` register banks are zeroed, the
write pointers set to 0, the active masks set to `0xFFFFFFFF`, and the
delay-buffer pointers rebound to the plugin's arena (in the arena model the
rebinding leaves the delay-line contents unchanged). -/
def resetFilterRegisters (cm : CoeffMaker) (st : QuadFilterUnitState) :
    CoeffMaker × QuadFilterUnitState :=
  ({ cm with C := fun _ => 0 },
   { st with R := fun _ => Vec4.zero, C := fun _ => Vec4.zero,
             WP := fun _ => 0, active := fun _ => 4294967295 })

/-- `activate()`: flush the gain smoother, reset the filter registers,
configure the coefficient maker with the host's sample rate and buffer size,
recompute coefficients from the current frequency-note and resonance fields
and push them into the runtime state. -/
def activate (lib : FilterLib) (p : PluginState) (hostRate : ℝ) (hostBlock : ℕ) :
    PluginState :=
  let sg := p.fSmoothGain.flush
  let rs := resetFilterRegisters p.coeffMaker p.filterState
  let cm2 := { rs.1 with rate := hostRate, blockSize := hostBlock }
  let cm3 := lib.MakeCoeffs cm2 p.fFreqNote p.fResonance
  { p with fSmoothGain := sg, coeffMaker := cm3,
           filterState := lib.updateState cm3 rs.2 }

/-- `sampleRateChanged(newRate)`: store the new rate, update the smoother's
rate (no flush), reset the filter registers, and reconfigure the coefficient
maker's rate and block size (no coefficient recomputation here). -/
def sampleRateChanged (p : PluginState) (newRate : ℝ) (hostBlock : ℕ) : PluginState :=
  let sg := p.fSmoothGain.setSampleRate newRate
  let rs := resetFilterRegisters p.coeffMaker p.filterState
  { p with fSampleRate := newRate, fSmoothGain := sg,
           coeffMaker := { rs.1 with rate := newRate, blockSize := hostBlock },
           filterState := rs.2 }

/-- The pre-loop phase of `run`: copy lane 0 of each live coefficient
register back into the staging array, recompute the staged coefficients from
the current frequency-note and resonance fields, and push them into the live
state.  Returns the updated staging state and the loop-entry filter state. -/
def runPre (lib : FilterLib) (p : PluginState) : CoeffMaker × QuadFilterUnitState :=
  let cm1 := { p.coeffMaker with C := fun f => (p.filterState.C f).s0 }
  let cm2 := lib.MakeCoeffs cm1 p.fFreqNote p.fResonance
  (cm2, lib.updateState cm2 p.filterState)

/-- Loop-carried state of `run`'s per-sample loop: the live filter state, the
gain smoother, and the two output buffers. -/
structure RunAcc where
  st : QuadFilterUnitState
  sg : CParamSmooth
  outL : ℕ → ℝ
  outR : ℕ → ℝ

/-- One iteration of `run`'s loop at sample index `i`: apply the filter unit
to the 4-wide unaligned load at `inpL[i]`, advance the smoother toward the
cached linear gain, store the gain-scaled filter output 4-wide at `outL[i]`
(touching indices `i .. i+3`), and write the gain-scaled dry input sample to
`outR[i]`. -/
def runStep (lib : FilterLib) (gainTarget : ℝ) (inpL : ℕ → ℝ) (i : ℕ)
    (a : RunAcc) : RunAcc :=
  let fr := lib.FUnit a.st (load4 inpL i)
  let pr := a.sg.process gainTarget
  let post := fr.1.scale pr.1
  { st := fr.2, sg := pr.2,
    outL := store4 a.outL i post,
    outR := writeAt a.outR i (inpL i * pr.1) }

/-- `run`'s loop over sample indices `0 .. n-1`, in ascending order. -/
def runLoop (lib : FilterLib) (gainTarget : ℝ) (inpL : ℕ → ℝ) :
    ℕ → RunAcc → RunAcc
  | 0, a => a
  | n + 1, a => runStep lib gainTarget inpL n (runLoop lib gainTarget inpL n a)

/-- `run(inputs, outputs, frames)`: the right input `inpR` is read into a
local and never used by the computation; the pre-loop phase refreshes the
coefficients from the current parameters, then the per-sample loop runs.
Returns the mutated plugin state and the two output buffers. -/
def run (lib : FilterLib) (p : PluginState) (inpL inpR : ℕ → ℝ)
    (outL0 outR0 : ℕ → ℝ) (frames : ℕ) : PluginState × (ℕ → ℝ) × (ℕ → ℝ) :=
  let pre := runPre lib p
  let a := runLoop lib p.fGainLinear inpL frames
    { st := pre.2, sg := p.fSmoothGain, outL := outL0, outR := outR0 }
  ({ p with coeffMaker := pre.1, filterState := a.st, fSmoothGain := a.sg },
   a.outL, a.outR)

end Filtered

/-! ## The gain-only sine-generator variant (`src/src/PluginDSP.cpp`) -/

namespace GainOnly

/-- Mutable fields of the `ImGuiPluginDSP` class of `src/src/PluginDSP.cpp`:
this variant has no resonance parameter (`kParamCount = 2`) and carries the
sine generator's sample counter `time`. -/
structure PluginState where
  fSampleRate : ℝ
  fGainDB : ℝ
  fGainLinear : ℝ
  fSmoothGain : CParamSmooth
  fFreqNote : ℝ
  coeffMaker : CoeffMaker
  filterState : QuadFilterUnitState
  time : ℕ

/-- `getParameterValue`: indices 0 and 1 return the gain-in-dB and
frequency-note fields; any other index returns `0.0`. -/
def getParameterValue (p : PluginState) (index : ℕ) : ℝ :=
  match index with
  | 0 => p.fGainDB
  | 1 => p.fFreqNote
  | _ => 0

/-- `setParameterValue`: index 0 stores the dB value and caches the clamped
linear gain; index 1 stores the raw frequency-note and immediately
recomputes and pushes coefficients with resonance constant `0.2`; other
indices do nothing. -/
def setParameterValue (lib : FilterLib) (p : PluginState) (index : ℕ)
    (value : ℝ) : PluginState :=
  match index with
  | 0 => { p with fGainDB := value, fGainLinear := DB_CO (clampR value (-90) 30) }
  | 1 =>
    let cm := lib.MakeCoeffs p.coeffMaker value 0.2
    { p with fFreqNote := value, coeffMaker := cm,
             filterState := lib.updateState cm p.filterState }
  | _ => p

/-- `activate()`: flush the gain smoother, configure the coefficient maker,
recompute coefficients from the constants `-12.0` and `0.2` (not from the
current parameter fields) and push them; the filter registers are not
reset in this variant. -/
def activate (lib : FilterLib) (p : PluginState) (hostRate : ℝ) (hostBlock : ℕ) :
    PluginState :=
  let sg := p.fSmoothGain.flush
  let cm2 := { p.coeffMaker with rate := hostRate, blockSize := hostBlock }
  let cm3 := lib.MakeCoeffs cm2 (-12) 0.2
  { p with fSmoothGain := sg, coeffMaker := cm3,
           filterState := lib.updateState cm3 p.filterState }

/-- `sampleRateChanged(newRate)`: store the new rate and update the
smoother's rate; nothing else is touched in this variant. -/
def sampleRateChanged (p : PluginState) (newRate : ℝ) : PluginState :=
  { p with fSampleRate := newRate,
           fSmoothGain := p.fSmoothGain.setSampleRate newRate }

/-- `sin_prec = 2 * pi * 440`. -/
def sinPrec : ℝ := 2 * Real.pi * 440

/-- The generated source sample once `time` has been incremented to `t`:
`0.25 * sin(sin_prec * (t / sampleRate))`. -/
def sineAt (rate : ℝ) (t : ℕ) : ℝ :=
  0.25 * Real.sin (sinPrec * ((t : ℝ) / rate))

/-- Loop-carried state of this variant's `run` loop: the sine counter, the
live filter state, the smoother, and the two output buffers. -/
structure RunAcc where
  time : ℕ
  st : QuadFilterUnitState
  sg : CParamSmooth
  outL : ℕ → ℝ
  outR : ℕ → ℝ

/-- One iteration of the gain-only `run` loop at sample index `i`:
increment `time`, synthesize the sine sample, advance the smoother, feed the
broadcast sample to the filter unit, write lane 0 of the filter output times
the gain to `outL[i]` and the unfiltered sample times the gain to
`outR[i]`. -/
def runStep (lib : FilterLib) (rate gainTarget : ℝ) (i : ℕ) (a : RunAcc) : RunAcc :=
  let t2 := a.time + 1
  let s := sineAt rate t2
  let pr := a.sg.process gainTarget
  let fr := lib.FUnit a.st (Vec4.splat s)
  { time := t2, st := fr.2, sg := pr.2,
    outL := writeAt a.outL i (fr.1.s0 * pr.1),
    outR := writeAt a.outR i (s * pr.1) }

/-- The gain-only `run` loop over sample indices `0 .. n-1`, ascending. -/
def runLoop (lib : FilterLib) (rate gainTarget : ℝ) : ℕ → RunAcc → RunAcc
  | 0, a => a
  | n + 1, a => runStep lib rate gainTarget n (runLoop lib rate gainTarget n a)

/-- The gain-only `run(inputs, outputs, frames)`: the input buffers are read
into locals and never used; no coefficient work happens before or inside the
loop.  Returns the mutated plugin state and the two output buffers. -/
def run (lib : FilterLib) (p : PluginState) (inpL inpR : ℕ → ℝ)
    (outL0 outR0 : ℕ → ℝ) (frames : ℕ) : PluginState × (ℕ → ℝ) × (ℕ → ℝ) :=
  let a := runLoop lib p.fSampleRate p.fGainLinear frames
    { time := p.time, st := p.filterState, sg := p.fSmoothGain,
      outL := outL0, outR := outR0 }
  ({ p with time := a.time, filterState := a.st, fSmoothGain := a.sg },
   a.outL, a.outR)

end GainOnly

/-! ## Concrete instantiations used by counterexamples and witnesses -/

/-- A concrete `FilterLib`: the filter unit passes its input through and
leaves the state unchanged; `MakeCoeffs` stages the frequency argument into
every coefficient slot (making the value handed to it observable); and
`updateState` pushes the staged coefficients into the live `C` registers,
touching nothing else. -/
def libX : FilterLib where
  FUnit := fun st v => (v, st)
  MakeCoeffs := fun cm f _ => { cm with C := fun _ => f }
  updateState := fun cm st => { st with C := fun i => Vec4.splat (cm.C i) }

/-- A coefficient maker staging state with zero coefficients at 48 kHz and
block size 512. -/
def cm0 : CoeffMaker := ⟨fun _ => 0, 48000, 512⟩

/-- A fully zeroed quad filter state with all lanes active. -/
def st0 : QuadFilterUnitState :=
  ⟨fun _ => Vec4.zero, fun _ => Vec4.zero, fun _ => 0, fun _ => 4294967295, fun _ _ => 0⟩

/-- A gain smoother already snapped to target 1 (20 ms at 48 kHz). -/
def sg1 : CParamSmooth := ⟨1, 1, 20, 48000⟩

/-- The all-zero sample buffer. -/
def zf : ℕ → ℝ := fun _ => 0

/-- An input buffer that is zero except for a 1 at index 3. -/
def inpOne3 : ℕ → ℝ := fun j => if j = 3 then 1 else 0

/-- A concrete filtered-variant plugin state: unity gain, frequency-note 0,
resonance 0.5, zeroed filter state. -/
def pF0 : Filtered.PluginState := ⟨48000, 0, 1, sg1, 0, 0.5, cm0, st0⟩

/-- `pF0` with nonzero delay-line history (every delay sample is 7). -/
def pF7 : Filtered.PluginState :=
  { pF0 with filterState := { st0 with DB := fun _ _ => 7 } }

/-- `pF0` with a gain smoother mid-ramp: smoothed value 5, last target 0. -/
def pF5 : Filtered.PluginState := { pF0 with fSmoothGain := ⟨5, 0, 20, 48000⟩ }

/-- A concrete gain-only-variant plugin state: unity gain, frequency-note 5,
zeroed filter state, sine counter 0. -/
def pG0 : GainOnly.PluginState := ⟨48000, 0, 1, sg1, 5, cm0, st0, 0⟩

/-- The loop accumulator `run` starts from on `pF0` with zero buffers. -/
def accF0 : Filtered.RunAcc := ⟨(Filtered.runPre libX pF0).2, pF0.fSmoothGain, zf, zf⟩

/-- The loop accumulator the gain-only `run` starts from on `pG0` with zero
buffers. -/
def accG0 : GainOnly.RunAcc := ⟨pG0.time, pG0.filterState, pG0.fSmoothGain, zf, zf⟩

end

/-! ## Helper lemmas -/

theorem writeAt_self (b : ℕ → ℝ) (i : ℕ) (v : ℝ) : writeAt b i v i = v := if_pos rfl

theorem writeAt_ne (b : ℕ → ℝ) (i : ℕ) (v : ℝ) {j : ℕ} (h : j ≠ i) :
    writeAt b i v j = b j := if_neg h

theorem store4_s0 (b : ℕ → ℝ) (i : ℕ) (v : Vec4) : store4 b i v i = v.s0 := by
  have h1 : i ≠ i + 1 := by omega
  have h2 : i ≠ i + 2 := by omega
  have h3 : i ≠ i + 3 := by omega
  simp [store4, writeAt, h1, h2, h3]

theorem store4_of_lt (b : ℕ → ℝ) (i : ℕ) (v : Vec4) {j : ℕ} (h : j < i) :
    store4 b i v j = b j := by
  have h0 : j ≠ i := by omega
  have h1 : j ≠ i + 1 := by omega
  have h2 : j ≠ i + 2 := by omega
  have h3 : j ≠ i + 3 := by omega
  simp [store4, writeAt, h0, h1, h2, h3]

/-- The final contents, at any in-range index `i`, of the two output buffers
produced by the filtered variant's loop: `outL i` is lane 0 of the filter
unit's output at iteration `i` scaled by the smoothed gain of iteration `i`
(later iterations only store at strictly higher indices), and `outR i` is
the dry input sample scaled by the same gain. -/
theorem filteredRunLoop_out (lib : FilterLib) (gT : ℝ) (inpL : ℕ → ℝ)
    (a : Filtered.RunAcc) :
    ∀ n i, i < n →
      ((Filtered.runLoop lib gT inpL n a).outL i
          = (lib.FUnit (Filtered.runLoop lib gT inpL i a).st (load4 inpL i)).1.s0
              * ((Filtered.runLoop lib gT inpL i a).sg.process gT).1)
      ∧ ((Filtered.runLoop lib gT inpL n a).outR i
          = inpL i * ((Filtered.runLoop lib gT inpL i a).sg.process gT).1) := by
  intro n
  induction n with
  | zero => intro i h; exact absurd h (Nat.not_lt_zero i)
  | succ m ih =>
    intro i h
    rcases Nat.lt_succ_iff_lt_or_eq.mp h with h2 | h2
    · refine ⟨?_, ?_⟩
      · show (Filtered.runStep lib gT inpL m (Filtered.runLoop lib gT inpL m a)).outL i = _
        rw [show (Filtered.runStep lib gT inpL m (Filtered.runLoop lib gT inpL m a)).outL
              = store4 (Filtered.runLoop lib gT inpL m a).outL m
                  (((lib.FUnit (Filtered.runLoop lib gT inpL m a).st (load4 inpL m)).1).scale
                    (((Filtered.runLoop lib gT inpL m a).sg.process gT).1)) from rfl,
            store4_of_lt _ _ _ h2]
        exact (ih i h2).1
      · show (Filtered.runStep lib gT inpL m (Filtered.runLoop lib gT inpL m a)).outR i = _
        rw [show (Filtered.runStep lib gT inpL m (Filtered.runLoop lib gT inpL m a)).outR
              = writeAt (Filtered.runLoop lib gT inpL m a).outR m
                  (inpL m * (((Filtered.runLoop lib gT inpL m a).sg.process gT).1)) from rfl,
            writeAt_ne _ _ _ (by omega)]
        exact (ih i h2).2
    · subst h2
      refine ⟨?_, ?_⟩
      · show (Filtered.runStep lib gT inpL i (Filtered.runLoop lib gT inpL i a)).outL i = _
        rw [show (Filtered.runStep lib gT inpL i (Filtered.runLoop lib gT inpL i a)).outL
              = store4 (Filtered.runLoop lib gT inpL i a).outL i
                  (((lib.FUnit (Filtered.runLoop lib gT inpL i a).st (load4 inpL i)).1).scale
                    (((Filtered.runLoop lib gT inpL i a).sg.process gT).1)) from rfl,
            store4_s0]
        rfl
      · show (Filtered.runStep lib gT inpL i (Filtered.runLoop lib gT inpL i a)).outR i = _
        rw [show (Filtered.runStep lib gT inpL i (Filtered.runLoop lib gT inpL i a)).outR
              = writeAt (Filtered.runLoop lib gT inpL i a).outR i
                  (inpL i * (((Filtered.runLoop lib gT inpL i a).sg.process gT).1)) from rfl,
            writeAt_self]

/-- The final contents, at any in-range index `i`, of the two output buffers
produced by the gain-only variant's loop: `outL i` is lane 0 of the filter
unit applied to the broadcast sine sample of iteration `i`, scaled by the
smoothed gain of that iteration, and `outR i` is the unfiltered sine sample
scaled by the same gain. -/
theorem gainOnlyRunLoop_out (lib : FilterLib) (rate gT : ℝ) (a : GainOnly.RunAcc) :
    ∀ n i, i < n →
      ((GainOnly.runLoop lib rate gT n a).outL i
          = (lib.FUnit (GainOnly.runLoop lib rate gT i a).st
              (Vec4.splat (GainOnly.sineAt rate ((GainOnly.runLoop lib rate gT i a).time + 1)))).1.s0
              * ((GainOnly.runLoop lib rate gT i a).sg.process gT).1)
      ∧ ((GainOnly.runLoop lib rate gT n a).outR i
          = GainOnly.sineAt rate ((GainOnly.runLoop lib rate gT i a).time + 1)
              * ((GainOnly.runLoop lib rate gT i a).sg.process gT).1) := by
  intro n
  induction n with
  | zero => intro i h; exact absurd h (Nat.not_lt_zero i)
  | succ m ih =>
    intro i h
    rcases Nat.lt_succ_iff_lt_or_eq.mp h with h2 | h2
    · refine ⟨?_, ?_⟩
      · show (GainOnly.runStep lib rate gT m (GainOnly.runLoop lib rate gT m a)).outL i = _
        rw [show (GainOnly.runStep lib rate gT m (GainOnly.runLoop lib rate gT m a)).outL
              = writeAt (GainOnly.runLoop lib rate gT m a).outL m
                  ((lib.FUnit (GainOnly.runLoop lib rate gT m a).st
                      (Vec4.splat (GainOnly.sineAt rate ((GainOnly.runLoop lib rate gT m a).time + 1)))).1.s0
                    * (((GainOnly.runLoop lib rate gT m a).sg.process gT).1)) from rfl,
            writeAt_ne _ _ _ (by omega)]
        exact (ih i h2).1
      · show (GainOnly.runStep lib rate gT m (GainOnly.runLoop lib rate gT m a)).outR i = _
        rw [show (GainOnly.runStep lib rate gT m (GainOnly.runLoop lib rate gT m a)).outR
              = writeAt (GainOnly.runLoop lib rate gT m a).outR m
                  (GainOnly.sineAt rate ((GainOnly.runLoop lib rate gT m a).time + 1)
                    * (((GainOnly.runLoop lib rate gT m a).sg.process gT).1)) from rfl,
            writeAt_ne _ _ _ (by omega)]
        exact (ih i h2).2
    · subst h2
      refine ⟨?_, ?_⟩
      · show (GainOnly.runStep lib rate gT i (GainOnly.runLoop lib rate gT i a)).outL i = _
        rw [show (GainOnly.runStep lib rate gT i (GainOnly.runLoop lib rate gT i a)).outL
              = writeAt (GainOnly.runLoop lib rate gT i a).outL i
                  ((lib.FUnit (GainOnly.runLoop lib rate gT i a).st
                      (Vec4.splat (GainOnly.sineAt rate ((GainOnly.runLoop lib rate gT i a).time + 1)))).1.s0
                    * (((GainOnly.runLoop lib rate gT i a).sg.process gT).1)) from rfl,
            writeAt_self]
      · show (GainOnly.runStep lib rate gT i (GainOnly.runLoop lib rate gT i a)).outR i = _
        rw [show (GainOnly.runStep lib rate gT i (GainOnly.runLoop lib rate gT i a)).outR
              = writeAt (GainOnly.runLoop lib rate gT i a).outR i
                  (GainOnly.sineAt rate ((GainOnly.runLoop lib rate gT i a).time + 1)
                    * (((GainOnly.runLoop lib rate gT i a).sg.process gT).1)) from rfl,
            writeAt_self]

/-! ## Claim theorems -/

/-- C1: for every call to `run` with `frameCount >= 1` and every sample
index `i < frameCount`, the left output sample equals the filter unit's
output for that sample (lane 0 of the quad output at iteration `i`)
multiplied by the smoothed gain computed at that sample, and the right
output sample equals the unfiltered source sample (the left input in the
filtered variant, the generated sine sample in the gain-only variant)
multiplied by that same per-sample smoothed gain. -/
theorem run_dry_wet_by_channel :
    (∀ (lib : FilterLib) (p : Filtered.PluginState) (inpL inpR outL0 outR0 : ℕ → ℝ)
        (frames i : ℕ), i < frames →
      ((Filtered.run lib p inpL inpR outL0 outR0 frames).2.1 i
          = (lib.FUnit (Filtered.runLoop lib p.fGainLinear inpL i
                ⟨(Filtered.runPre lib p).2, p.fSmoothGain, outL0, outR0⟩).st
              (load4 inpL i)).1.s0
            * ((Filtered.runLoop lib p.fGainLinear inpL i
                ⟨(Filtered.runPre lib p).2, p.fSmoothGain, outL0, outR0⟩).sg.process
                  p.fGainLinear).1)
      ∧ ((Filtered.run lib p inpL inpR outL0 outR0 frames).2.2 i
          = inpL i
            * ((Filtered.runLoop lib p.fGainLinear inpL i
                ⟨(Filtered.runPre lib p).2, p.fSmoothGain, outL0, outR0⟩).sg.process
                  p.fGainLinear).1))
    ∧ (∀ (lib : FilterLib) (p : GainOnly.PluginState) (inpL inpR outL0 outR0 : ℕ → ℝ)
        (frames i : ℕ), i < frames →
      ((GainOnly.run lib p inpL inpR outL0 outR0 frames).2.1 i
          = (lib.FUnit (GainOnly.runLoop lib p.fSampleRate p.fGainLinear i
                ⟨p.time, p.filterState, p.fSmoothGain, outL0, outR0⟩).st
              (Vec4.splat (GainOnly.sineAt p.fSampleRate
                ((GainOnly.runLoop lib p.fSampleRate p.fGainLinear i
                  ⟨p.time, p.filterState, p.fSmoothGain, outL0, outR0⟩).time + 1)))).1.s0
            * ((GainOnly.runLoop lib p.fSampleRate p.fGainLinear i
                ⟨p.time, p.filterState, p.fSmoothGain, outL0, outR0⟩).sg.process
                  p.fGainLinear).1)
      ∧ ((GainOnly.run lib p inpL inpR outL0 outR0 frames).2.2 i
          = GainOnly.sineAt p.fSampleRate
              ((GainOnly.runLoop lib p.fSampleRate p.fGainLinear i
                ⟨p.time, p.filterState, p.fSmoothGain, outL0, outR0⟩).time + 1)
            * ((GainOnly.runLoop lib p.fSampleRate p.fGainLinear i
                ⟨p.time, p.filterState, p.fSmoothGain, outL0, outR0⟩).sg.process
                  p.fGainLinear).1)) := by
  constructor
  · intro lib p inpL inpR outL0 outR0 frames i h
    exact filteredRunLoop_out lib p.fGainLinear inpL
      ⟨(Filtered.runPre lib p).2, p.fSmoothGain, outL0, outR0⟩ frames i h
  · intro lib p inpL inpR outL0 outR0 frames i h
    exact gainOnlyRunLoop_out lib p.fSampleRate p.fGainLinear
      ⟨p.time, p.filterState, p.fSmoothGain, outL0, outR0⟩ frames i h

/-- C1 witness: the channel characterization instantiated at a concrete
library, plugin state, zero input buffers, one frame, sample index 0. -/
theorem run_dry_wet_by_channel_witness :
    ((Filtered.run libX pF0 zf zf zf zf 1).2.1 0
        = (libX.FUnit (Filtered.runLoop libX pF0.fGainLinear zf 0 accF0).st
            (load4 zf 0)).1.s0
          * ((Filtered.runLoop libX pF0.fGainLinear zf 0 accF0).sg.process
              pF0.fGainLinear).1)
    ∧ ((Filtered.run libX pF0 zf zf zf zf 1).2.2 0
        = zf 0
          * ((Filtered.runLoop libX pF0.fGainLinear zf 0 accF0).sg.process
              pF0.fGainLinear).1)
    ∧ ((GainOnly.run libX pG0 zf zf zf zf 1).2.1 0
        = (libX.FUnit (GainOnly.runLoop libX pG0.fSampleRate pG0.fGainLinear 0 accG0).st
            (Vec4.splat (GainOnly.sineAt pG0.fSampleRate
              ((GainOnly.runLoop libX pG0.fSampleRate pG0.fGainLinear 0 accG0).time + 1)))).1.s0
          * ((GainOnly.runLoop libX pG0.fSampleRate pG0.fGainLinear 0 accG0).sg.process
              pG0.fGainLinear).1)
    ∧ ((GainOnly.run libX pG0 zf zf zf zf 1).2.2 0
        = GainOnly.sineAt pG0.fSampleRate
            ((GainOnly.runLoop libX pG0.fSampleRate pG0.fGainLinear 0 accG0).time + 1)
          * ((GainOnly.runLoop libX pG0.fSampleRate pG0.fGainLinear 0 accG0).sg.process
              pG0.fGainLinear).1) :=
  ⟨(run_dry_wet_by_channel.1 libX pF0 zf zf zf zf 1 0 (by norm_num)).1,
   (run_dry_wet_by_channel.1 libX pF0 zf zf zf zf 1 0 (by norm_num)).2,
   (run_dry_wet_by_channel.2 libX pG0 zf zf zf zf 1 0 (by norm_num)).1,
   (run_dry_wet_by_channel.2 libX pG0 zf zf zf zf 1 0 (by norm_num)).2⟩

/-- C2 counterexample: writing FrequencyNote = 100 stores the raw value and
`run`'s pre-loop phase hands exactly that value to `MakeCoeffs` (observable
through a recording instantiation of the library interface), although 100
lies outside the declared range [-60, 64]; no caller-side clamping exists. -/
theorem param_clamp_counterexample :
    (Filtered.setParameterValue pF0 1 100).fFreqNote = 100
    ∧ (Filtered.runPre libX (Filtered.setParameterValue pF0 1 100)).1.C 0 = 100
    ∧ ¬((100 : ℝ) ≤ 64) :=
  ⟨rfl, rfl, by norm_num⟩

/-- C2 amended: only the Gain parameter is clamped (to [-90, 30]) before the
decibel-to-linear conversion; FrequencyNote and Resonance are stored
unmodified by `setParameterValue` and forwarded verbatim, unclamped, to
`MakeCoeffs` by `run`'s pre-loop phase. -/
theorem param_clamp_amended :
    ∀ (p : Filtered.PluginState) (v : ℝ),
      (Filtered.setParameterValue p 0 v).fGainLinear = DB_CO (clampR v (-90) 30)
      ∧ (Filtered.setParameterValue p 1 v).fFreqNote = v
      ∧ (Filtered.setParameterValue p 2 v).fResonance = v
      ∧ ∀ lib : FilterLib,
          (Filtered.runPre lib p).1
            = lib.MakeCoeffs { p.coeffMaker with C := fun f => (p.filterState.C f).s0 }
                p.fFreqNote p.fResonance :=
  fun _ _ => ⟨rfl, rfl, rfl, fun _ => rfl⟩

/-- C3 (code bug): with `frameCount = 1` the loop's 4-wide unaligned
load/store at sample 0 reads `inpL[3]` and writes `outL[3]`, both outside
the valid region `{0}`: starting from an all-zero output buffer, after `run`
the sample at index 3 is 1, and that value came from `inpL[3]` (running the
same call on an all-zero input leaves index 3 at 0), although `3 < 1` is
false. -/
theorem run_oob_access :
    zf 3 = 0
    ∧ (Filtered.run libX pF0 inpOne3 zf zf zf 1).2.1 3 = 1
    ∧ (Filtered.run libX pF0 zf zf zf zf 1).2.1 3 = 0
    ∧ ¬(3 < 1) := by
  refine ⟨rfl, ?_, ?_, by omega⟩
  · show (Filtered.runStep libX pF0.fGainLinear inpOne3 0 accF0).outL 3 = 1
    simp [Filtered.runStep, Filtered.runPre, libX, store4, writeAt, load4, Vec4.scale,
      CParamSmooth.process, pF0, sg1, inpOne3, accF0, cm0, st0, zf]
  · show (Filtered.runStep libX pF0.fGainLinear zf 0 accF0).outL 3 = 0
    simp [Filtered.runStep, Filtered.runPre, libX, store4, writeAt, load4, Vec4.scale,
      CParamSmooth.process, pF0, sg1, accF0, cm0, st0, zf]

/-- C4 counterexample: in the gain-only variant, `run` performs no
coefficient work at all.  With a pass-through filter unit, running one frame
on a state whose FrequencyNote is 5 but whose live coefficient registers are
still zero leaves the registers zero, while recomputing from the current
parameter value and pushing would have made them 5. -/
theorem run_no_recompute_counterexample :
    (GainOnly.run libX pG0 zf zf zf zf 1).1.filterState.C 0 = Vec4.zero
    ∧ (libX.updateState (libX.MakeCoeffs pG0.coeffMaker pG0.fFreqNote 0.2)
        pG0.filterState).C 0 = Vec4.splat 5
    ∧ Vec4.zero ≠ Vec4.splat 5 := by
  refine ⟨rfl, rfl, ?_⟩
  simp [Vec4.zero, Vec4.splat, Vec4.mk.injEq]

/-- C4 amended: in the filtered-stereo variant, every `run` call recomputes
the coefficients from the current FrequencyNote and Resonance fields before
the per-sample loop — the result is insensitive to whatever was left in the
coefficient maker's staging array, the staged coefficients after `run` are
exactly `MakeCoeffs` of the current parameter values, and the loop-entry
filter state is the `updateState` push of that recomputation.  In the
gain-only variant, coefficients are recomputed and pushed only by
`setParameterValue` when FrequencyNote (index 1) is written, with resonance
constant 0.2 — not by `run`. -/
theorem coeff_recompute_amended :
    (∀ (lib : FilterLib) (p : Filtered.PluginState) (g1 g2 : Fin 8 → ℝ)
        (inpL inpR outL0 outR0 : ℕ → ℝ) (n : ℕ),
      Filtered.run lib { p with coeffMaker := { p.coeffMaker with C := g1 } }
          inpL inpR outL0 outR0 n
        = Filtered.run lib { p with coeffMaker := { p.coeffMaker with C := g2 } }
            inpL inpR outL0 outR0 n)
    ∧ (∀ (lib : FilterLib) (p : Filtered.PluginState) (inpL inpR outL0 outR0 : ℕ → ℝ)
        (n : ℕ),
      (Filtered.run lib p inpL inpR outL0 outR0 n).1.coeffMaker
        = lib.MakeCoeffs { p.coeffMaker with C := fun f => (p.filterState.C f).s0 }
            p.fFreqNote p.fResonance)
    ∧ (∀ (lib : FilterLib) (p : Filtered.PluginState),
      (Filtered.runPre lib p).2
        = lib.updateState
            (lib.MakeCoeffs { p.coeffMaker with C := fun f => (p.filterState.C f).s0 }
              p.fFreqNote p.fResonance)
            p.filterState)
    ∧ (∀ (lib : FilterLib) (q : GainOnly.PluginState) (v : ℝ),
      (GainOnly.setParameterValue lib q 1 v).filterState
        = lib.updateState (lib.MakeCoeffs q.coeffMaker v 0.2) q.filterState) :=
  ⟨fun _ _ _ _ _ _ _ _ _ => rfl, fun _ _ _ _ _ _ _ => rfl, fun _ _ => rfl,
   fun _ _ _ => rfl⟩

/-- C5 counterexample: `activate` does not zero the entire filter runtime
state: the delay-line contents survive it (a buffer holding 7 still holds 7
afterwards), and the per-lane active masks are set to the all-ones mask
`0xFFFFFFFF`, not to zero. -/
theorem activate_counterexample :
    (Filtered.activate libX pF7 48000 512).filterState.DB 0 0 = 7
    ∧ (7 : ℝ) ≠ 0
    ∧ (Filtered.activate libX pF7 48000 512).filterState.active 0 = 4294967295
    ∧ (4294967295 : ℕ) ≠ 0 := by
  refine ⟨rfl, by norm_num, rfl, by norm_num⟩

/-- C5 amended: in the filtered variant, `activate` flushes the gain
smoother, zeroes the register banks and write pointers, sets every lane's
active mask to the all-ones mask, leaves the delay-line contents unchanged
(only the pointers are rebound), reconfigures the coefficient maker with the
host rate and block size, recomputes coefficients from the current
FrequencyNote and Resonance fields and pushes them into the runtime state
(hypothesis: the library's push touches only the coefficient registers, as
the sst-filters `updateState` does).  In the gain-only variant, `activate`
flushes the smoother and recomputes from the constants -12 and 0.2 without
resetting any filter register. -/
theorem activate_amended (lib : FilterLib) (p : Filtered.PluginState)
    (hostRate : ℝ) (hostBlock : ℕ)
    (hres : ∀ cm st, (lib.updateState cm st).R = st.R
      ∧ (lib.updateState cm st).WP = st.WP
      ∧ (lib.updateState cm st).active = st.active
      ∧ (lib.updateState cm st).DB = st.DB) :
    (Filtered.activate lib p hostRate hostBlock).fSmoothGain = p.fSmoothGain.flush
    ∧ (∀ r, (Filtered.activate lib p hostRate hostBlock).filterState.R r = Vec4.zero)
    ∧ (∀ l, (Filtered.activate lib p hostRate hostBlock).filterState.WP l = 0)
    ∧ (∀ l, (Filtered.activate lib p hostRate hostBlock).filterState.active l = 4294967295)
    ∧ (Filtered.activate lib p hostRate hostBlock).filterState.DB = p.filterState.DB
    ∧ (Filtered.activate lib p hostRate hostBlock).coeffMaker
        = lib.MakeCoeffs ⟨fun _ => 0, hostRate, hostBlock⟩ p.fFreqNote p.fResonance
    ∧ (Filtered.activate lib p hostRate hostBlock).filterState
        = lib.updateState ((Filtered.activate lib p hostRate hostBlock).coeffMaker)
            ((Filtered.resetFilterRegisters p.coeffMaker p.filterState).2)
    ∧ (∀ (lib2 : FilterLib) (q : GainOnly.PluginState) (r2 : ℝ) (b2 : ℕ),
        (GainOnly.activate lib2 q r2 b2).fSmoothGain = q.fSmoothGain.flush
        ∧ (GainOnly.activate lib2 q r2 b2).coeffMaker
            = lib2.MakeCoeffs { q.coeffMaker with rate := r2, blockSize := b2 } (-12) 0.2
        ∧ (GainOnly.activate lib2 q r2 b2).filterState
            = lib2.updateState (GainOnly.activate lib2 q r2 b2).coeffMaker
                q.filterState) := by
  refine ⟨rfl, ?_, ?_, ?_, ?_, rfl, rfl, fun _ _ _ _ => ⟨rfl, rfl, rfl⟩⟩
  · intro r
    simp only [Filtered.activate]
    rw [(hres _ _).1]
    exact rfl
  · intro l
    simp only [Filtered.activate]
    rw [(hres _ _).2.1]
    exact rfl
  · intro l
    simp only [Filtered.activate]
    rw [(hres _ _).2.2.1]
    exact rfl
  · simp only [Filtered.activate]
    rw [(hres _ _).2.2.2]
    exact rfl

/-- C5 witness: the amended activation characterization instantiated at the
concrete register-only-push library `libX` and a state whose delay lines
hold 7 everywhere: the active mask is all-ones and the delay contents are
untouched. -/
theorem activate_amended_witness :
    (Filtered.activate libX pF7 48000 512).filterState.active 0 = 4294967295
    ∧ (Filtered.activate libX pF7 48000 512).filterState.DB = pF7.filterState.DB :=
  ⟨(activate_amended libX pF7 48000 512 (fun _ _ => ⟨rfl, rfl, rfl, rfl⟩)).2.2.2.1 0,
   (activate_amended libX pF7 48000 512 (fun _ _ => ⟨rfl, rfl, rfl, rfl⟩)).2.2.2.2.1⟩

/-- C6: the decibel-to-linear conversion `DB_CO` maps exactly -90 dB to
linear gain 0 (the hard floor: the guard `g > -90` fails) and 0 dB to linear
gain 1 (`10 ^ 0 = 1`). -/
theorem db_co_floor_and_unity : DB_CO (-90) = 0 ∧ DB_CO 0 = 1 := by
  constructor
  · rw [DB_CO, if_neg (lt_irrefl (-90 : ℝ))]
  · rw [DB_CO, if_pos (by norm_num : (0 : ℝ) > -90)]
    rw [show ((0 : ℝ) * 0.05) = 0 by norm_num, Real.rpow_zero]

/-! ## Smoother facts (for the smoother claims) -/

theorem smoother_coeff_stable (s : CParamSmooth) (t : ℝ) (n : ℕ) :
    (s.processN t n).coeff = s.coeff := by
  induction n with
  | zero => rfl
  | succ m ih =>
    show ((s.processN t m).process t).2.coeff = s.coeff
    rw [show ((s.processN t m).process t).2.coeff = (s.processN t m).coeff from rfl, ih]

/-- After `n` identical-target process calls, the distance to the target is
the initial distance scaled by `coeff ^ n`. -/
theorem smoother_dist_formula (s : CParamSmooth) (t : ℝ) (n : ℕ) :
    (s.processN t n).value - t = s.coeff ^ n * (s.value - t) := by
  induction n with
  | zero => simp [CParamSmooth.processN]
  | succ m ih =>
    have h1 : (s.processN t (m + 1)).value
        = t + (s.processN t m).coeff * ((s.processN t m).value - t) := rfl
    have h2 : (s.processN t m).value = t + s.coeff ^ m * (s.value - t) := by linarith
    rw [h1, smoother_coeff_stable, h2]
    ring

theorem smoother_coeff_pos (s : CParamSmooth) : 0 < s.coeff := Real.exp_pos _

theorem smoother_coeff_lt_one (s : CParamSmooth) (hT : 0 < s.timeMs)
    (hR : 0 < s.rate) : s.coeff < 1 := by
  have hden : (0 : ℝ) < s.timeMs * 0.001 * s.rate := by positivity
  exact Real.exp_lt_one_iff.mpr (div_neg_of_neg_of_pos (by norm_num) hden)

/-- C7 counterexample: with the smoothed value already snapped to the target
(exactly the state the claim's first part produces after `flush`), repeated
`process` calls with the same target keep the distance at 0, so the distance
does not strictly decrease on each call. -/
theorem smoother_counterexample :
    ((sg1.flush).process 1).1 = 1
    ∧ ¬(|((((sg1.flush).process 1).2).process 1).1 - 1|
          < |((sg1.flush).process 1).1 - 1|) := by
  constructor <;>
    simp [sg1, CParamSmooth.flush, CParamSmooth.process]

/-- C7 amended (smoother modelled from the spec): after `flush`, the first
`process` call returns the target exactly when that target equals the last
processed target (the flushed value); for any state whose smoothed value
differs from the target, each `process` call strictly decreases the distance
to the target; the motion never overshoots (the value moves strictly toward
the target, staying on its original side); the distance after `n` calls is
`coeff ^ n` times the initial distance with `coeff` in (0, 1); and the
iterated values converge to the target. -/
theorem smoother_amended (s : CParamSmooth) (t : ℝ)
    (hT : 0 < s.timeMs) (hR : 0 < s.rate) :
    (((s.flush).process s.lastTarget).1 = s.lastTarget)
    ∧ (s.value ≠ t → |(s.process t).1 - t| < |s.value - t|)
    ∧ (s.value < t → s.value < (s.process t).1 ∧ (s.process t).1 < t)
    ∧ (t < s.value → t < (s.process t).1 ∧ (s.process t).1 < s.value)
    ∧ (∀ n, (s.processN t n).value - t = s.coeff ^ n * (s.value - t))
    ∧ Filter.Tendsto (fun n => (s.processN t n).value) Filter.atTop (nhds t) := by
  have hc0 := smoother_coeff_pos s
  have hc1 := smoother_coeff_lt_one s hT hR
  have hv : (s.process t).1 = t + s.coeff * (s.value - t) := rfl
  refine ⟨?_, ?_, ?_, ?_, smoother_dist_formula s t, ?_⟩
  · have h1 : ((s.flush).process s.lastTarget).1
        = s.lastTarget + s.coeff * (s.lastTarget - s.lastTarget) := rfl
    rw [h1]; ring
  · intro hne
    have habs : 0 < |s.value - t| := abs_pos.mpr (sub_ne_zero.mpr hne)
    rw [show (s.process t).1 - t = s.coeff * (s.value - t) by rw [hv]; ring,
        abs_mul, abs_of_pos hc0]
    nlinarith [mul_pos (sub_pos.mpr hc1) habs]
  · intro hlt
    constructor
    · nlinarith [hv, mul_pos (sub_pos.mpr hc1) (sub_pos.mpr hlt)]
    · have := mul_neg_of_pos_of_neg hc0 (sub_neg.mpr hlt)
      linarith [hv, this]
  · intro hlt
    constructor
    · have := mul_pos hc0 (sub_pos.mpr hlt)
      linarith [hv, this]
    · nlinarith [hv, mul_pos (sub_pos.mpr hc1) (sub_pos.mpr hlt)]
  · have heq : ∀ n, (s.processN t n).value = t + s.coeff ^ n * (s.value - t) := by
      intro n
      have := smoother_dist_formula s t n
      linarith
    have h0 : Filter.Tendsto (fun n : ℕ => s.coeff ^ n) Filter.atTop (nhds 0) :=
      tendsto_pow_atTop_nhds_zero_of_lt_one hc0.le hc1
    have h1 : Filter.Tendsto (fun n : ℕ => t + s.coeff ^ n * (s.value - t))
        Filter.atTop (nhds (t + 0 * (s.value - t))) :=
      Filter.Tendsto.const_add t (h0.mul_const (s.value - t))
    rw [show t + 0 * (s.value - t) = t by ring] at h1
    exact Filter.Tendsto.congr (fun n => (heq n).symm) h1

/-- C7 witness: the amended smoother characterization at time constant 20 ms,
48 kHz, initial value 0, target 1: the hypotheses hold and the first process
call strictly decreases the distance to the target. -/
theorem smoother_amended_witness :
    (0 : ℝ) < 20 ∧ (0 : ℝ) < 48000
    ∧ |((CParamSmooth.mk 0 0 20 48000).process 1).1 - 1|
        < |(CParamSmooth.mk 0 0 20 48000).value - 1| :=
  ⟨by norm_num, by norm_num,
   (smoother_amended ⟨0, 0, 20, 48000⟩ 1 (by norm_num) (by norm_num)).2.1
     (by norm_num)⟩

/-- C8 counterexample: `sampleRateChanged` does not flush the gain smoother:
a smoother mid-ramp at value 5 (last target 0) still holds value 5 after the
callback, whereas a flush would have snapped it to 0. -/
theorem sampleRateChanged_counterexample :
    (Filtered.sampleRateChanged pF5 96000 512).fSmoothGain.value = 5
    ∧ pF5.fSmoothGain.flush.value = 0
    ∧ (5 : ℝ) ≠ 0 :=
  ⟨rfl, rfl, by norm_num⟩

/-- C8 amended: in the filtered variant, `sampleRateChanged` stores the new
rate, updates the smoother's sample rate without flushing its smoothed
value, zeroes the filter register banks and write pointers, sets the lane
masks to all-ones, leaves the delay-line contents in place, and reconfigures
the coefficient maker's rate and block size (zeroing its staged
coefficients); in the gain-only variant it only stores the new rate and
updates the smoother's rate. -/
theorem sampleRateChanged_amended :
    ∀ (p : Filtered.PluginState) (newRate : ℝ) (hostBlock : ℕ),
      (Filtered.sampleRateChanged p newRate hostBlock).fSampleRate = newRate
      ∧ (Filtered.sampleRateChanged p newRate hostBlock).fSmoothGain
          = { p.fSmoothGain with rate := newRate }
      ∧ (Filtered.sampleRateChanged p newRate hostBlock).fSmoothGain.value
          = p.fSmoothGain.value
      ∧ (∀ r, (Filtered.sampleRateChanged p newRate hostBlock).filterState.R r = Vec4.zero)
      ∧ (∀ f, (Filtered.sampleRateChanged p newRate hostBlock).filterState.C f = Vec4.zero)
      ∧ (∀ l, (Filtered.sampleRateChanged p newRate hostBlock).filterState.WP l = 0)
      ∧ (∀ l, (Filtered.sampleRateChanged p newRate hostBlock).filterState.active l
            = 4294967295)
      ∧ (Filtered.sampleRateChanged p newRate hostBlock).filterState.DB
          = p.filterState.DB
      ∧ (Filtered.sampleRateChanged p newRate hostBlock).coeffMaker
          = ⟨fun _ => 0, newRate, hostBlock⟩
      ∧ (∀ (q : GainOnly.PluginState) (r2 : ℝ),
          (GainOnly.sampleRateChanged q r2).fSampleRate = r2
          ∧ (GainOnly.sampleRateChanged q r2).fSmoothGain = q.fSmoothGain.setSampleRate r2
          ∧ (GainOnly.sampleRateChanged q r2).filterState = q.filterState
          ∧ (GainOnly.sampleRateChanged q r2).coeffMaker = q.coeffMaker) :=
  fun _ _ _ =>
    ⟨rfl, rfl, rfl, fun _ => rfl, fun _ => rfl, fun _ => rfl, fun _ => rfl, rfl, rfl,
     fun _ _ => ⟨rfl, rfl, rfl, rfl⟩⟩

/-- C9: for every index at or beyond `kParamCount = 3`,
`getParameterValue` returns the benign default 0.0 and `setParameterValue`
leaves the plugin state unchanged. -/
theorem out_of_range_params (p : Filtered.PluginState) (index : ℕ)
    (h : 3 ≤ index) :
    Filtered.getParameterValue p index = 0
    ∧ ∀ v, Filtered.setParameterValue p index v = p := by
  obtain ⟨k, rfl⟩ : ∃ k, index = k + 3 := ⟨index - 3, by omega⟩
  exact ⟨rfl, fun _ => rfl⟩

/-- C9 witness: the out-of-range behaviour at index 5 on a concrete state. -/
theorem out_of_range_params_witness :
    (3 : ℕ) ≤ 5 ∧ Filtered.getParameterValue pF0 5 = 0
    ∧ Filtered.setParameterValue pF0 5 3 = pF0 :=
  ⟨by norm_num, (out_of_range_params pF0 5 (by norm_num)).1,
   (out_of_range_params pF0 5 (by norm_num)).2 3⟩

/-- C10: in the filtered-stereo variant, `run` never reads the right input
channel: two calls from the same plugin state whose inputs agree on the left
channel but differ arbitrarily on the right produce identical output buffers
and identical final state. -/
theorem right_input_ignored :
    ∀ (lib : FilterLib) (p : Filtered.PluginState)
      (inpL inpR1 inpR2 outL0 outR0 : ℕ → ℝ) (frames : ℕ),
      Filtered.run lib p inpL inpR1 outL0 outR0 frames
        = Filtered.run lib p inpL inpR2 outL0 outR0 frames :=
  fun _ _ _ _ _ _ _ _ => rfl

end DpfSst
